import Mathlib

/-!
Shallow embedding of the self-installation and self-update subsystem of the
sortpath CLI (Go), together with proofs about its behaviour.

Conventions of the embedding:
* file systems are association lists from absolute path to file content
  (a `String` standing for the byte sequence of the file);
* network and OS calls that the Go code performs are passed in as explicit
  inputs (an `Option HttpResp` for an HTTP GET, an `Except` value for a
  fallible read, a `writable` predicate for directory permissions);
* clock instants are integers (seconds); the Go zero `time.Time` is `0`.
-/

deriving instance DecidableEq for Except

namespace Sortpath

/-- Substring test on char lists: Go `strings.Contains` (whether `sub`
occurs contiguously in the second argument). -/
def listContainsSub (sub : List Char) : List Char → Bool
  | [] => sub.isEmpty
  | c :: rest => sub.isPrefixOf (c :: rest) || listContainsSub sub rest

/-- Go `strings.Contains hay sub`. -/
def strContains (hay sub : String) : Bool :=
  listContainsSub sub.data hay.data

/-- A file system: association list from path to file content.  A path that
is absent models a file that does not exist. -/
def FS := List (String × String)

instance : DecidableEq FS := by
  unfold FS
  infer_instance

/-- Read a file (Go `os.ReadFile` / `os.Stat` success = `some`). -/
def fsLookup : FS → String → Option String
  | [], _ => none
  | (q, v) :: rest, p => if q = p then some v else fsLookup rest p

/-- Delete every entry at `p` (Go `os.Remove`; removing a missing file is
the failing no-op the code ignores). -/
def fsErase : FS → String → FS
  | [], _ => []
  | (q, v) :: rest, p => if q = p then fsErase rest p else (q, v) :: fsErase rest p

/-- Create-or-truncate a file with the given content. -/
def fsWrite (fs : FS) (p v : String) : FS := (p, v) :: fsErase fs p

/-- An HTTP response: status code plus the full body that was received. -/
structure HttpResp where
  status : Nat
  body : String
deriving DecidableEq

/-- Embedding of `verifyBinary` (internal/updater/updater.go): `os.Stat`
the path, fail when it is missing, fail with the "empty" message when its
size is zero. -/
def verifyBinary (fs : FS) (path : String) : Except String Unit :=
  match fsLookup fs path with
  | none => .error "stat failed"
  | some content =>
    if content.length = 0 then .error "downloaded binary is empty" else .ok ()

/-- Embedding of `UpdateBinary` (internal/updater/updater.go).

`execPath` is the result of `os.Executable`, `resp` the outcome of the
`http.Get` on the release download URL (`none` = transport error), and
`canWriteTmp` whether the `os.OpenFile` that creates the sibling temp file
succeeds.  Returns the error outcome together with the resulting file
system.  The Go code's deferred `os.Remove(tmpPath)` runs on every exit
path after creation; after the successful rename it is the ignored
failing no-op, so only the failure paths erase the temp entry. -/
def updateBinary (execPath : String) (resp : Option HttpResp)
    (canWriteTmp : Bool) (fs : FS) : Except String Unit × FS :=
  match resp with
  | none => (.error "failed to download update", fs)
  | some r =>
    if r.status ≠ 200 then (.error ("download failed: " ++ toString r.status), fs)
    else
      let tmpPath := execPath ++ ".tmp"
      if ¬ canWriteTmp then (.error "failed to create temporary file", fs)
      else
        let fs1 := fsWrite fs tmpPath r.body
        match verifyBinary fs1 tmpPath with
        | .error e =>
            (.error ("update verification failed: " ++ e), fsErase fs1 tmpPath)
        | .ok _ =>
            (.ok (), fsWrite (fsErase fs1 tmpPath) execPath r.body)

/-- Persisted configuration record (internal config package `Config`
struct); the Go zero value has every string empty and every flag false,
which the default field values mirror. -/
structure Config where
  apiKey : String := ""
  apiBase : String := ""
  model : String := ""
  tree : String := ""
  installPromptDisabled : Bool := false
  installedPath : String := ""
  disableAutoUpdate : Bool := false
deriving DecidableEq

/-- Go `filepath.Join` for the two-component calls the code makes
(`filepath.Join("", x) = x`, otherwise insert a separator; the inputs the
code joins carry no trailing separators, so no cleaning is needed). -/
def joinPath (a b : String) : String := if a = "" then b else a ++ "/" ++ b

/-- Go `filepath.Base`: strip trailing separators, then keep the last
path component; the empty string gives ".", an all-separator string "/". -/
def baseName (s : String) : String :=
  let rcs := s.data.reverse.dropWhile (· = '/')
  if s = "" then "."
  else if rcs = [] then "/"
  else ⟨(rcs.takeWhile (· ≠ '/')).reverse⟩

/-- Ambient process environment for the install flow: the resolved
current-executable path, `HOME`, `SHELL`, the split `PATH` entries, and
which directories the process may create files in. -/
structure InstallEnv where
  srcPath : String
  home : String
  shellEnv : String
  pathEnv : List String
  writable : String → Bool

/-- Error cases of `copyFile` (pkg/cli/args.go): the source cannot be
opened, or creating the destination is denied. -/
inductive CopyErr
  | srcMissing
  | permission
deriving DecidableEq

/-- Embedding of `copyFile` (pkg/cli/args.go): open the source read-only,
ensure the destination directory exists, create the destination and
stream-copy.  `dstDir` is the directory of `dst`; creation in a
non-writable directory is the permission-denied failure. -/
def copyFile (fs : FS) (writable : String → Bool) (src dst dstDir : String) :
    Except CopyErr FS :=
  match fsLookup fs src with
  | none => .error .srcMissing
  | some content =>
    if writable dstDir then .ok (fsWrite fs dst content)
    else .error .permission

/-- Embedding of `userBinFallbackDir` (pkg/cli/args.go): the loop over the
candidate list returns on its first iteration, so the result is always
`$HOME/bin`. -/
def userBinFallbackDir (home : String) : String := joinPath home "bin"

/-- Embedding of `pathContainsDir` (pkg/cli/args.go): exact-match search
over the `PATH` entries. -/
def pathContainsDir (pathEnv : List String) (dir : String) : Bool :=
  pathEnv.contains dir

/-- The activation snippet `addDirToShellPATH` appends: a timestamped
comment line followed by an export statement (`nowStr` stands for the
RFC3339-rendered current time). -/
def pathSnippet (nowStr dir : String) : String :=
  "\n# Added by sortpath on " ++ nowStr ++ "\nexport PATH=\x22" ++ dir ++ ":$PATH\x22\n"

/-- Shell-profile selection of `addDirToShellPATH`: zsh gets `.zshrc`,
bash gets `.bash_profile` when that file exists else `.bashrc`, anything
else `.profile`. -/
def profileFor (env : InstallEnv) (fs : FS) : String :=
  let shell := baseName env.shellEnv
  if shell = "zsh" then joinPath env.home ".zshrc"
  else if shell = "bash" then
    if (fsLookup fs (joinPath env.home ".bash_profile")).isSome then
      joinPath env.home ".bash_profile"
    else joinPath env.home ".bashrc"
  else joinPath env.home ".profile"

/-- Embedding of `addDirToShellPATH` (pkg/cli/args.go): pick the profile
file, return "not added" when its current content already contains `dir`
textually, otherwise append the activation snippet (creating the file if
missing).  The user's home is taken to be writable, so the open-for-append
error path is not modelled.  Result: profile path, whether the snippet was
appended, resulting file system. -/
def addDirToShellPATH (env : InstallEnv) (dir nowStr : String) (fs : FS) :
    String × Bool × FS :=
  let profilePath := profileFor env fs
  match fsLookup fs profilePath with
  | some content =>
    if strContains content dir then (profilePath, false, fs)
    else (profilePath, true, fsWrite fs profilePath (content ++ pathSnippet nowStr dir))
  | none => (profilePath, true, fsWrite fs profilePath (pathSnippet nowStr dir))

/-- Exit points of `HandleInstallCommand` (pkg/cli/args.go). -/
inductive InstallOutcome
  | alreadyInstalled (destPath : String)
  | installedPrimary (destPath : String)
  | installedFallback (userDest : String) (addedToProfile : Bool)
  | failedNoFallbackDir
  | failedBoth
  | failedCopy
deriving DecidableEq

/-- Result of the install handler: the exit point taken, the file system
after the call, and the persisted configuration after the call. -/
structure InstallResultS where
  outcome : InstallOutcome
  fs : FS
  cfg : Config
deriving DecidableEq

/-- The copy phase of `HandleInstallCommand`: primary copy, and on a
permission-denied failure the fallback into the user bin directory
(created if absent) followed by the PATH-integration attempt.  The
`os.Chmod` calls only touch permission bits, which the file-content map
does not track.  The handler performs no write to the persisted
configuration, so `cfg` is returned as received. -/
def installCopyPhase (env : InstallEnv) (destDir destPath nowStr : String)
    (fs : FS) (cfg : Config) : InstallResultS :=
  match copyFile fs env.writable env.srcPath destPath destDir with
  | .ok fs1 => ⟨.installedPrimary destPath, fs1, cfg⟩
  | .error .srcMissing => ⟨.failedCopy, fs, cfg⟩
  | .error .permission =>
    let fallbackDir := userBinFallbackDir env.home
    if fallbackDir = "" then ⟨.failedNoFallbackDir, fs, cfg⟩
    else
      let userDest := joinPath fallbackDir "sortpath"
      match copyFile fs env.writable env.srcPath userDest fallbackDir with
      | .error _ => ⟨.failedBoth, fs, cfg⟩
      | .ok fs2 =>
        if pathContainsDir env.pathEnv fallbackDir then
          ⟨.installedFallback userDest false, fs2, cfg⟩
        else
          let r := addDirToShellPATH env fallbackDir nowStr fs2
          ⟨.installedFallback userDest r.2.1, r.2.2, cfg⟩

/-- Embedding of `HandleInstallCommand` (pkg/cli/args.go): with `force`
unset, an existing file at the destination path aborts with the
already-installed error before anything is copied. -/
def handleInstallCommand (env : InstallEnv) (destDir : String) (force : Bool)
    (nowStr : String) (fs : FS) (cfg : Config) : InstallResultS :=
  let destPath := joinPath destDir "sortpath"
  if force = false ∧ (fsLookup fs destPath).isSome then
    ⟨.alreadyInstalled destPath, fs, cfg⟩
  else installCopyPhase env destDir destPath nowStr fs cfg

/-- Environment for concrete install runs: only the user's own bin
directory is writable; the fallback directory is not yet on `PATH`. -/
def envFallback : InstallEnv :=
  { srcPath := "/tmp/sortpath", home := "/home/u", shellEnv := "/bin/zsh",
    pathEnv := ["/usr/bin"], writable := fun d => d = "/home/u/bin" }

/-- Release description built by `CheckLatestRelease`
(internal/updater/updater.go), the channel prefix already stripped. -/
structure Release where
  version : String
  downloadURL : String
  publishedAt : Int
deriving DecidableEq

/-- One release asset of the GitHub "latest release" payload. -/
structure GHAsset where
  name : String
  browserDownloadURL : String
deriving DecidableEq

/-- Decoded GitHub "latest release" payload (`githubRelease` struct). -/
structure GHRelease where
  tagName : String
  publishedAt : Int
  assets : List GHAsset
deriving DecidableEq

/-- Failure cases of `CheckLatestRelease`, one per return site. -/
inductive RelErr
  | network
  | remote (status : Nat)
  | decodeFailed
  | noAsset (platform : String)
deriving DecidableEq

/-- The platform token `CheckLatestRelease` matches asset names against:
`runtime.GOOS + "_" + runtime.GOARCH`, with ".exe" appended on Windows. -/
def platformTag (goos goarch : String) : String :=
  let p := goos ++ "_" ++ goarch
  if goos = "windows" then p ++ ".exe" else p

/-- Go `strings.TrimPrefix tag "v"`. -/
def trimV (s : String) : String :=
  match s.data with
  | 'v' :: rest => ⟨rest⟩
  | _ => s

/-- Embedding of `CheckLatestRelease` (internal/updater/updater.go).
`resp` is the outcome of the metadata GET: `none` is a transport error;
otherwise the status code together with the decoded payload (`none` for a
body that fails to decode).  After decoding, the first asset whose name
contains the platform token is selected; when none matches — or the
matching asset carries an empty download URL — the no-suitable-binary
error is returned. -/
def checkLatestRelease (goos goarch : String)
    (resp : Option (Nat × Option GHRelease)) : Except RelErr Release :=
  match resp with
  | none => .error .network
  | some (code, payload) =>
    if code ≠ 200 then .error (.remote code)
    else
      match payload with
      | none => .error .decodeFailed
      | some gr =>
        let platform := platformTag goos goarch
        let downloadURL :=
          match gr.assets.find? (fun a => strContains a.name platform) with
          | some a => a.browserDownloadURL
          | none => ""
        if downloadURL = "" then .error (.noAsset platform)
        else .ok ⟨trimV gr.tagName, downloadURL, gr.publishedAt⟩

/-- Observable behaviour of one run of `checkForUpdates`
(cmd/sortpath.go): whether the Release Resolver was invoked, the instant
written through `SetLastUpdateCheck` (if any), and the version a
notification was rendered for (if any). -/
structure CheckOutcome where
  networkCalled : Bool
  wrote : Option Int
  notify : Option String
deriving DecidableEq

/-- Embedding of `checkForUpdates` (cmd/sortpath.go).  `getRes` is the
result of `GetLastUpdateCheck` (instants in seconds; `0` is the Go zero
time); on an error the code proceeds as if never checked.  A non-zero
last-check instant less than one minute (60 s) old throttles the run with
no resolver call.  Otherwise the resolver result `resolver` is consumed
and the last-check instant is rewritten to `now` on both the error and
the success path; a version differing from the running one is notified. -/
def checkForUpdates (version : String) (getRes : Except String Int)
    (now : Int) (resolver : Except RelErr Release) : CheckOutcome :=
  if version = "dev" then ⟨false, none, none⟩
  else
    let lastCheck : Int := match getRes with | .error _ => 0 | .ok t => t
    if lastCheck ≠ 0 ∧ now - lastCheck < 60 then ⟨false, none, none⟩
    else
      match resolver with
      | .error _ => ⟨true, some now, none⟩
      | .ok rel =>
        ⟨true, some now, if rel.version ≠ version then some rel.version else none⟩

/-- The persisted last-check store at the instant level: `none` models a
missing cache file (read as the zero time with no error), `some t` a file
holding the RFC3339 rendering of `t`, which `time.Parse` inverts. -/
def storeGetRes : Option Int → Except String Int
  | none => .ok 0
  | some t => .ok t

/-- One scheduler run against the persisted store: run `checkForUpdates`
and apply the `SetLastUpdateCheck` write (if any) to the store. -/
def checkStep (version : String) (store : Option Int) (now : Int)
    (resolver : Except RelErr Release) : CheckOutcome × Option Int :=
  let r := checkForUpdates version (storeGetRes store) now resolver
  (r, match r.wrote with | some t => some t | none => store)

/-- Errors of the raw cache-file read underlying `GetLastUpdateCheck`. -/
inductive FsErr
  | notExist
  | other
deriving DecidableEq

/-- Go `strings.TrimSpace` restricted to ASCII whitespace (the cache file
only ever holds an RFC3339 string). -/
def trimSpace (s : String) : String :=
  let ws := fun c => c = ' ' ∨ c = '\t' ∨ c = '\n' ∨ c = '\r'
  ⟨((s.data.dropWhile ws).reverse.dropWhile ws).reverse⟩

/-- Embedding of `GetLastUpdateCheck` (internal/updater): a missing cache
file yields the zero time with no error; any other read failure is
returned; otherwise the trimmed content is parsed as RFC3339
(`parseRFC3339` stands for the external `time.Parse`). -/
def getLastUpdateCheck (readRes : Except FsErr String)
    (parseRFC3339 : String → Except String Int) : Except String Int :=
  match readRes with
  | .error .notExist => .ok 0
  | .error .other => .error "read failed"
  | .ok data => parseRFC3339 (trimSpace data)

/-- Embedding of `config.Load`: a missing config file yields the zero
`Config` with no error; any other open failure is an error; otherwise the
content is decoded (`decode` stands for the external YAML decoder). -/
def configLoad (openRes : Except FsErr String)
    (decode : String → Except String Config) : Except String Config :=
  match openRes with
  | .error .notExist => .ok {}
  | .error .other => .error "open failed"
  | .ok data => decode data

/-- Embedding of `IsInstalled` (internal/updater/updater.go): the load
error is discarded and the config's `InstalledPath` compared with the
empty string.  When `Load` failed the Go code dereferences a nil pointer,
so no boolean is produced (`none`). -/
def isInstalled (loadRes : Except String Config) : Option Bool :=
  match loadRes with
  | .ok c => some (decide (c.installedPath ≠ ""))
  | .error _ => none

/-- Exit points of `HandleUpdateCommand` (pkg/cli/args.go). -/
inductive UpdateOutcome
  | checkFailed
  | alreadyLatest
  | checkOnlyNotice (version : String)
  | notInstalled
  | updateFailed
  | updated (version : String)
deriving DecidableEq

/-- Result of the update handler: the exit point, whether the release
asset download (`UpdateBinary`) was ever started, and the file system
after the call. -/
structure UpdateResultS where
  outcome : UpdateOutcome
  downloadAttempted : Bool
  fs : FS
deriving DecidableEq

/-- Embedding of `HandleUpdateCommand` (pkg/cli/args.go): resolve the
latest release first; stop successfully when it matches the running
version; with `--check-only` stop after the notice; otherwise require
`IsInstalled` before invoking `UpdateBinary`.  A `none` result models the
process crashing inside `IsInstalled` on a failed config load. -/
def handleUpdateCommand (checkOnly : Bool) (currentVersion : String)
    (checkResult : Except RelErr Release) (loadRes : Except String Config)
    (execPath : String) (downloadResp : Option HttpResp) (canWriteTmp : Bool)
    (fs : FS) : Option UpdateResultS :=
  match checkResult with
  | .error _ => some ⟨.checkFailed, false, fs⟩
  | .ok release =>
    if release.version = currentVersion then some ⟨.alreadyLatest, false, fs⟩
    else if checkOnly then some ⟨.checkOnlyNotice release.version, false, fs⟩
    else
      match isInstalled loadRes with
      | none => none
      | some false => some ⟨.notInstalled, false, fs⟩
      | some true =>
        match updateBinary execPath downloadResp canWriteTmp fs with
        | (.error _, fs1) => some ⟨.updateFailed, true, fs1⟩
        | (.ok _, fs1) => some ⟨.updated release.version, true, fs1⟩

/-- The GitHub latest-release payload for v1.2.0 carrying the release
asset named as the repository's Makefile and install script name it:
with a hyphen between OS and architecture. -/
def releaseLinuxHyphen : GHRelease :=
  ⟨"v1.2.0", 0,
    [⟨"sortpath-linux-amd64",
      "https://github.com/kacperkwapisz/sortpath/releases/download/v1.2.0/sortpath-linux-amd64"⟩]⟩

theorem fsLookup_fsErase (fs : FS) (p q : String) :
    fsLookup (fsErase fs p) q = if p = q then none else fsLookup fs q := by
  induction fs with
  | nil => simp [fsErase, fsLookup]
  | cons hd tl ih =>
    obtain ⟨a, b⟩ := hd
    by_cases hap : a = p <;> by_cases haq : a = q <;>
      simp_all [fsErase, fsLookup] <;>
      exact fun hh => hap hh.symm

theorem fsLookup_fsWrite (fs : FS) (p v q : String) :
    fsLookup (fsWrite fs p v) q = if p = q then some v else fsLookup fs q := by
  unfold fsWrite
  simp only [fsLookup]
  by_cases hpq : p = q
  · simp [hpq]
  · simp [hpq, fsLookup_fsErase]

theorem self_ne_tmp (s : String) : s ≠ s ++ ".tmp" := by
  intro h
  have hlen := congrArg String.length h
  have h4 : String.length ".tmp" = 4 := by decide
  simp only [String.length_append, h4] at hlen
  omega

/-- C1: an update download with a 200 status but a zero-byte body makes
`UpdateBinary` fail with the verification error, leaves the file at the
live executable path byte-for-byte unchanged, and removes the sibling
temporary file before returning. -/
theorem updateBinary_zero_byte_body (execPath : String) (resp : HttpResp)
    (fs : FS) (hstatus : resp.status = 200) (hbody : resp.body = "") :
    (updateBinary execPath (some resp) true fs).1
        = .error "update verification failed: downloaded binary is empty"
    ∧ fsLookup (updateBinary execPath (some resp) true fs).2 execPath
        = fsLookup fs execPath
    ∧ fsLookup (updateBinary execPath (some resp) true fs).2 (execPath ++ ".tmp")
        = none := by
  obtain ⟨st, bd⟩ := resp
  subst hstatus hbody
  have hne : ¬ execPath = execPath ++ ".tmp" := self_ne_tmp execPath
  have hne2 : ¬ execPath ++ ".tmp" = execPath := fun h => hne h.symm
  simp [updateBinary, verifyBinary, fsLookup_fsWrite, fsLookup_fsErase, hne, hne2]

/-- Closed witness for `updateBinary_zero_byte_body` at a concrete file
system holding an old binary at the executable path. -/
theorem updateBinary_zero_byte_body_witness :
    (updateBinary "/usr/local/bin/sortpath" (some ⟨200, ""⟩) true
        [("/usr/local/bin/sortpath", "OLDBINARY")]).1
        = .error "update verification failed: downloaded binary is empty"
    ∧ fsLookup (updateBinary "/usr/local/bin/sortpath" (some ⟨200, ""⟩) true
        [("/usr/local/bin/sortpath", "OLDBINARY")]).2 "/usr/local/bin/sortpath"
        = fsLookup [("/usr/local/bin/sortpath", "OLDBINARY")] "/usr/local/bin/sortpath"
    ∧ fsLookup (updateBinary "/usr/local/bin/sortpath" (some ⟨200, ""⟩) true
        [("/usr/local/bin/sortpath", "OLDBINARY")]).2 ("/usr/local/bin/sortpath" ++ ".tmp")
        = none :=
  updateBinary_zero_byte_body "/usr/local/bin/sortpath" ⟨200, ""⟩
    [("/usr/local/bin/sortpath", "OLDBINARY")] rfl rfl

/-- C7: with `force` unset and a file already present at the install
destination path, the install handler fails with the already-installed
error and returns the file system (hence the existing file's bytes) and
the persisted configuration unchanged. -/
theorem handleInstall_existing_dest_unchanged (env : InstallEnv)
    (destDir nowStr : String) (fs : FS) (cfg : Config)
    (h : (fsLookup fs (joinPath destDir "sortpath")).isSome = true) :
    handleInstallCommand env destDir false nowStr fs cfg
      = ⟨.alreadyInstalled (joinPath destDir "sortpath"), fs, cfg⟩ := by
  simp [handleInstallCommand, h]

/-- Closed witness for `handleInstall_existing_dest_unchanged`: a
destination that already holds a sortpath binary. -/
theorem handleInstall_existing_dest_unchanged_witness :
    handleInstallCommand envFallback "/usr/local/bin" false "T"
        [("/usr/local/bin/sortpath", "EXISTING")] {}
      = ⟨.alreadyInstalled (joinPath "/usr/local/bin" "sortpath"),
          [("/usr/local/bin/sortpath", "EXISTING")], {}⟩ :=
  handleInstall_existing_dest_unchanged envFallback "/usr/local/bin" "T"
    [("/usr/local/bin/sortpath", "EXISTING")] {} (by decide)

/-- C2: a permission-denied primary copy followed by a successful fallback
copy into the user bin directory completes the install (the binary lands
at the fallback path and the activation snippet is appended), yet the
handler returns with the persisted configuration untouched:
`installedPath` is still empty, not the fallback path.
`HandleInstallCommand` contains no configuration write at all, so the
state the `update` flow later consults never records the install. -/
theorem handleInstall_fallback_never_persists :
    (handleInstallCommand envFallback "/usr/local/bin" false "T"
        [("/tmp/sortpath", "BIN")] {}).outcome
      = .installedFallback "/home/u/bin/sortpath" true
    ∧ fsLookup (handleInstallCommand envFallback "/usr/local/bin" false "T"
        [("/tmp/sortpath", "BIN")] {}).fs "/home/u/bin/sortpath" = some "BIN"
    ∧ (handleInstallCommand envFallback "/usr/local/bin" false "T"
        [("/tmp/sortpath", "BIN")] {}).cfg.installedPath = "" := by
  decide

theorem listContainsSub_iff (sub l : List Char) :
    listContainsSub sub l = true ↔ sub <:+: l := by
  induction l with
  | nil =>
    simp only [listContainsSub, List.isEmpty_iff, List.infix_nil]
  | cons c rest ih =>
    simp [listContainsSub, List.isPrefixOf_iff_prefix, ih, List.infix_cons_iff]

theorem strContains_middle (x sub y : String) :
    strContains (x ++ sub ++ y) sub = true := by
  rw [strContains, listContainsSub_iff]
  simp only [String.data_append]
  exact List.infix_append _ _ _

theorem contains_append_snippet (content ns dir : String) :
    strContains (content ++ pathSnippet ns dir) dir = true := by
  have hre : content ++ pathSnippet ns dir
      = (content ++ ("\n# Added by sortpath on " ++ ns ++ "\nexport PATH=\x22"))
          ++ dir ++ ":$PATH\x22\n" := by
    simp only [pathSnippet, String.append_assoc]
  rw [hre]
  exact strContains_middle _ _ _

theorem contains_snippet (ns dir : String) :
    strContains (pathSnippet ns dir) dir = true :=
  strContains_middle ("\n# Added by sortpath on " ++ ns ++ "\nexport PATH=\x22")
    dir ":$PATH\x22\n"

theorem joinPath_ne_of_length (h a b : String) (hab : a.length ≠ b.length) :
    joinPath h a ≠ joinPath h b := by
  unfold joinPath
  by_cases hh : h = ""
  · simp only [hh, if_pos rfl]
    intro he
    exact hab (congrArg String.length he)
  · simp only [hh, if_neg, ite_false]
    intro he
    have := congrArg String.length he
    simp only [String.length_append] at this
    omega

/-- Writing to the profile file selected for a file system does not change
which profile file is selected. -/
theorem profileFor_fsWrite_self (env : InstallEnv) (fs : FS) (v : String) :
    profileFor env (fsWrite fs (profileFor env fs) v) = profileFor env fs := by
  have hne : joinPath env.home ".bashrc" ≠ joinPath env.home ".bash_profile" :=
    joinPath_ne_of_length _ _ _ (by decide)
  by_cases hz : baseName env.shellEnv = "zsh"
  · simp [profileFor, hz]
  · by_cases hb : baseName env.shellEnv = "bash"
    · by_cases hbp :
        (fsLookup fs (joinPath env.home ".bash_profile")).isSome = true
      · simp [profileFor, hz, hb, hbp, fsLookup_fsWrite]
      · have hp : profileFor env fs = joinPath env.home ".bashrc" := by
          simp [profileFor, hz, hb, hbp]
        rw [hp]
        have hlook : fsLookup (fsWrite fs (joinPath env.home ".bashrc") v)
            (joinPath env.home ".bash_profile")
            = fsLookup fs (joinPath env.home ".bash_profile") := by
          rw [fsLookup_fsWrite, if_neg hne]
        simp [profileFor, hz, hb, hlook, hbp]
    · simp [profileFor, hz, hb]

/-- When the selected profile already textually contains `dir`,
`addDirToShellPATH` reports "not added" and changes nothing. -/
theorem addDirToShellPATH_noop_of_contains (env : InstallEnv)
    (dir ns c : String) (fs : FS)
    (hl : fsLookup fs (profileFor env fs) = some c)
    (hc : strContains c dir = true) :
    addDirToShellPATH env dir ns fs = (profileFor env fs, false, fs) := by
  simp [addDirToShellPATH, hl, hc]

/-- C8 (amended): `addDirToShellPATH` appends the activation snippet at
most once across two consecutive calls for the same directory: whatever
the initial profile contents, the second call selects the same profile
file, observes the directory already textually present, reports "not
added", and leaves the file system unchanged. -/
theorem addDirToShellPATH_second_call_noop (env : InstallEnv)
    (dir ns1 ns2 : String) (fs : FS) :
    addDirToShellPATH env dir ns2 (addDirToShellPATH env dir ns1 fs).2.2
      = ((addDirToShellPATH env dir ns1 fs).1, false,
          (addDirToShellPATH env dir ns1 fs).2.2) := by
  cases hl : fsLookup fs (profileFor env fs) with
  | some content =>
    by_cases hc : strContains content dir = true
    · rw [addDirToShellPATH_noop_of_contains env dir ns1 content fs hl hc]
      rw [addDirToShellPATH_noop_of_contains env dir ns2 content fs hl hc]
    · have hfirst : addDirToShellPATH env dir ns1 fs
          = (profileFor env fs, true,
              fsWrite fs (profileFor env fs) (content ++ pathSnippet ns1 dir)) := by
        simp [addDirToShellPATH, hl, hc]
      rw [hfirst]
      have hpf := profileFor_fsWrite_self env fs (content ++ pathSnippet ns1 dir)
      have hl2 : fsLookup
          (fsWrite fs (profileFor env fs) (content ++ pathSnippet ns1 dir))
          (profileFor env
            (fsWrite fs (profileFor env fs) (content ++ pathSnippet ns1 dir)))
          = some (content ++ pathSnippet ns1 dir) := by
        rw [hpf, fsLookup_fsWrite]
        simp
      have := addDirToShellPATH_noop_of_contains env dir ns2
        (content ++ pathSnippet ns1 dir)
        (fsWrite fs (profileFor env fs) (content ++ pathSnippet ns1 dir))
        hl2 (contains_append_snippet content ns1 dir)
      rw [this, hpf]
  | none =>
    have hfirst : addDirToShellPATH env dir ns1 fs
        = (profileFor env fs, true,
            fsWrite fs (profileFor env fs) (pathSnippet ns1 dir)) := by
      simp [addDirToShellPATH, hl]
    rw [hfirst]
    have hpf := profileFor_fsWrite_self env fs (pathSnippet ns1 dir)
    have hl2 : fsLookup (fsWrite fs (profileFor env fs) (pathSnippet ns1 dir))
        (profileFor env (fsWrite fs (profileFor env fs) (pathSnippet ns1 dir)))
        = some (pathSnippet ns1 dir) := by
      rw [hpf, fsLookup_fsWrite]
      simp
    have := addDirToShellPATH_noop_of_contains env dir ns2 (pathSnippet ns1 dir)
      (fsWrite fs (profileFor env fs) (pathSnippet ns1 dir))
      hl2 (contains_snippet ns1 dir)
    rw [this, hpf]

/-- C8 counterexample to the claim as stated: when the profile already
contains the directory before the first call, two consecutive calls
append the snippet zero times — not exactly once — while both report "not
added" and leave the profile byte-for-byte unchanged. -/
theorem addDirToShellPATH_twice_zero_appends :
    (addDirToShellPATH envFallback "/home/u/bin" "T1"
        [("/home/u/.zshrc", "export PATH=\x22/home/u/bin:$PATH\x22\n")]).2.1 = false
    ∧ (addDirToShellPATH envFallback "/home/u/bin" "T2"
        (addDirToShellPATH envFallback "/home/u/bin" "T1"
          [("/home/u/.zshrc", "export PATH=\x22/home/u/bin:$PATH\x22\n")]).2.2).2.1
        = false
    ∧ (addDirToShellPATH envFallback "/home/u/bin" "T2"
        (addDirToShellPATH envFallback "/home/u/bin" "T1"
          [("/home/u/.zshrc", "export PATH=\x22/home/u/bin:$PATH\x22\n")]).2.2).2.2
        = [("/home/u/.zshrc", "export PATH=\x22/home/u/bin:$PATH\x22\n")] := by
  decide

/-- Whenever a `checkForUpdates` run invokes the Release Resolver, it
rewrites the last-check instant to `now`, whatever the resolver
returned. -/
theorem checkForUpdates_wrote (version : String) (getRes : Except String Int)
    (now : Int) (resolver : Except RelErr Release)
    (h : (checkForUpdates version getRes now resolver).networkCalled = true) :
    (checkForUpdates version getRes now resolver).wrote = some now := by
  simp only [checkForUpdates] at h ⊢
  split_ifs at h ⊢ with hdev hth
  all_goals cases resolver <;> simp

/-- C5: every automatic check that passes the throttle and consults the
Release Resolver rewrites the persisted last-check instant to the current
time before it completes — the hypothesis holds for a failing resolver
just as for a succeeding one, since `resolver` is arbitrary. -/
theorem setLastUpdateCheck_rewritten_always (version : String)
    (getRes : Except String Int) (now : Int) (resolver : Except RelErr Release)
    (h : (checkForUpdates version getRes now resolver).networkCalled = true) :
    (checkForUpdates version getRes now resolver).wrote = some now :=
  checkForUpdates_wrote version getRes now resolver h

/-- Closed witness for `setLastUpdateCheck_rewritten_always`, applied both
to a failing resolver and to a succeeding one. -/
theorem setLastUpdateCheck_rewritten_always_witness :
    (checkForUpdates "1.0.0" (.ok 0) 42 (.error .network)).wrote = some 42
    ∧ (checkForUpdates "1.0.0" (.ok 0) 42 (.ok ⟨"2.0.0", "u", 0⟩)).wrote
        = some 42 :=
  ⟨setLastUpdateCheck_rewritten_always "1.0.0" (.ok 0) 42 (.error .network)
      (by decide),
   setLastUpdateCheck_rewritten_always "1.0.0" (.ok 0) 42
      (.ok ⟨"2.0.0", "u", 0⟩) (by decide)⟩

/-- C4: if a scheduler run at instant `now1` invoked the Release Resolver
(recording `now1` in the persisted store) and a second run follows less
than the sixty-second throttle interval later, the second run performs no
network request: it returns before consulting the resolver.  `now1 ≠ 0`
records that the wall clock never reads the Go zero time. -/
theorem throttle_second_check_no_network (version : String)
    (store : Option Int) (now1 now2 : Int) (r1 r2 : Except RelErr Release)
    (hnet : (checkStep version store now1 r1).1.networkCalled = true)
    (hnz : now1 ≠ 0) (hgap : now2 - now1 < 60) :
    (checkStep version (checkStep version store now1 r1).2 now2 r2).1.networkCalled
      = false := by
  have hnet1 : (checkForUpdates version (storeGetRes store) now1 r1).networkCalled
      = true := hnet
  have hw := checkForUpdates_wrote version (storeGetRes store) now1 r1 hnet1
  have hs : (checkStep version store now1 r1).2 = some now1 := by
    simp [checkStep, hw]
  rw [hs]
  by_cases hdev : version = "dev" <;>
    simp [checkStep, checkForUpdates, storeGetRes, hdev, hnz, hgap]

/-- Closed witness for `throttle_second_check_no_network`: a first check
at t = 100 against an empty store, a second at t = 130. -/
theorem throttle_second_check_no_network_witness :
    (checkStep "1.0.0" (checkStep "1.0.0" none 100 (.error .network)).2 130
        (.error .network)).1.networkCalled = false :=
  throttle_second_check_no_network "1.0.0" none 100 130 (.error .network)
    (.error .network) (by decide) (by decide) (by decide)

/-- C10: a cache read that fails because the file is missing yields the
zero time with no error, and any read or parse failure makes
`checkForUpdates` proceed as if never checked: the resolver is consulted
rather than the run aborting. -/
theorem readError_treated_as_never_checked (version : String)
    (hdev : version ≠ "dev") (getErr : String) (now : Int)
    (resolver : Except RelErr Release)
    (parseRFC3339 : String → Except String Int) :
    getLastUpdateCheck (.error .notExist) parseRFC3339 = .ok 0
    ∧ (checkForUpdates version (.error getErr) now resolver).networkCalled
        = true := by
  refine ⟨rfl, ?_⟩
  cases resolver <;> simp [checkForUpdates, hdev]

/-- Closed witness for `readError_treated_as_never_checked`. -/
theorem readError_treated_as_never_checked_witness :
    getLastUpdateCheck (.error .notExist) (fun _ => .error "parse") = .ok 0
    ∧ (checkForUpdates "1.0.0" (.error "corrupt cache") 5
        (.error .network)).networkCalled = true :=
  readError_treated_as_never_checked "1.0.0" (by decide) "corrupt cache" 5
    (.error .network) (fun _ => .error "parse")

/-- C3 (amended): when the resolved latest version differs from the
running one, an `update` invocation without `--check-only` against an
empty persisted `installedPath` stops with the not-installed error,
having never started the asset download and leaving the file system (in
particular the live executable) untouched. -/
theorem update_empty_installedPath_notInstalled (currentVersion : String)
    (rel : Release) (cfg : Config) (execPath : String)
    (downloadResp : Option HttpResp) (canWriteTmp : Bool) (fs : FS)
    (hver : rel.version ≠ currentVersion) (hpath : cfg.installedPath = "") :
    handleUpdateCommand false currentVersion (.ok rel) (.ok cfg) execPath
        downloadResp canWriteTmp fs
      = some ⟨.notInstalled, false, fs⟩ := by
  simp [handleUpdateCommand, isInstalled, hver, hpath]

/-- Closed witness for `update_empty_installedPath_notInstalled`. -/
theorem update_empty_installedPath_notInstalled_witness :
    handleUpdateCommand false "1.1.0" (.ok ⟨"1.2.0", "u", 0⟩) (.ok {}) "/p"
        none true [("/p", "OLD")]
      = some ⟨.notInstalled, false, [("/p", "OLD")]⟩ :=
  update_empty_installedPath_notInstalled "1.1.0" ⟨"1.2.0", "u", 0⟩ {} "/p"
    none true [("/p", "OLD")] (by decide) (by decide)

/-- C3 counterexample to the claim as stated: with an empty
`installedPath` and no `--check-only`, an invocation whose resolved
latest version equals the running version exits successfully with the
already-latest message — it does not fail with the not-installed
error. -/
theorem update_empty_installedPath_alreadyLatest :
    handleUpdateCommand false "1.2.0" (.ok ⟨"1.2.0", "u", 0⟩) (.ok {}) "/p"
        none true []
      = some ⟨.alreadyLatest, false, []⟩
    ∧ UpdateOutcome.alreadyLatest ≠ UpdateOutcome.notInstalled := by
  decide

/-- C6: on linux/amd64 the resolver computes the token "linux_amd64"
(underscore), so the v1.2.0 release asset named "sortpath-linux-amd64" —
which does contain the hyphenated tag the distribution channel uses — is
never matched: the check fails with the no-asset error and the end-to-end
run notifies nothing, instead of selecting the asset and notifying
version "1.2.0" over "1.1.0". -/
theorem checkLatestRelease_misses_hyphen_assets :
    strContains "sortpath-linux-amd64" "linux-amd64" = true
    ∧ checkLatestRelease "linux" "amd64" (some (200, some releaseLinuxHyphen))
        = .error (.noAsset "linux_amd64")
    ∧ (checkForUpdates "1.1.0" (storeGetRes none) 100
        (checkLatestRelease "linux" "amd64"
          (some (200, some releaseLinuxHyphen)))).notify = none := by
  decide

/-- C9: a missing configuration file makes `config.Load` return the zero
configuration with no error, `IsInstalled` then reports false (no crash),
and an `update` invocation in that state takes the not-installed error
path. -/
theorem configLoad_missing_notInstalled
    (decode : String → Except String Config) (currentVersion : String)
    (rel : Release) (execPath : String) (downloadResp : Option HttpResp)
    (canWriteTmp : Bool) (fs : FS) (hver : rel.version ≠ currentVersion) :
    configLoad (.error .notExist) decode = .ok {}
    ∧ isInstalled (configLoad (.error .notExist) decode) = some false
    ∧ handleUpdateCommand false currentVersion (.ok rel)
        (configLoad (.error .notExist) decode) execPath downloadResp
        canWriteTmp fs
      = some ⟨.notInstalled, false, fs⟩ := by
  refine ⟨rfl, rfl, ?_⟩
  simp [handleUpdateCommand, configLoad, isInstalled, hver]

/-- Closed witness for `configLoad_missing_notInstalled`. -/
theorem configLoad_missing_notInstalled_witness :
    configLoad (.error .notExist) (fun _ => .error "decode") = .ok {}
    ∧ isInstalled (configLoad (.error .notExist) (fun _ => .error "decode"))
        = some false
    ∧ handleUpdateCommand false "1.1.0" (.ok ⟨"1.2.0", "u", 0⟩)
        (configLoad (.error .notExist) (fun _ => .error "decode")) "/p" none
        true []
      = some ⟨.notInstalled, false, []⟩ :=
  configLoad_missing_notInstalled (fun _ => .error "decode") "1.1.0"
    ⟨"1.2.0", "u", 0⟩ "/p" none true [] (by decide)

end Sortpath
